import Mathlib

/-!
Verification of the Cassandra access layer of the `football-nosql` backend.

The definitions below are a shallow embedding of the Python source:
* `backend/app/dao.py` — statement cache, batch writer, pagination engine;
* `backend/app/main.py` — latest-market-value maintenance, advanced search;
* `backend/app/utils.py` — `parse_date`, `to_int`;
* `backend/ingest_market_values.py`, `backend/ingest_transfers.py` — ingestion.

Bytes are modelled as `Nat` with explicit `< 256` bounds, dates as integer
ordinals, and the Cassandra session as an abstract function parameter.
-/

namespace FootballNoSQL

/-! ### Base64 (model of Python `base64.b64encode` / `base64.b64decode`)

`dao.get_paginated_results` encodes the driver's native paging state with
`base64.b64encode` and decodes incoming cursors with `base64.b64decode`,
catching any decode exception.  We model bytes as `Nat` (< 256) and model
`b64decode`'s lenient mode as: discard characters outside the alphabet and
padding, then strictly decode four-character groups. -/

/-- The standard base64 alphabet, `encode6 n` is the character for a six-bit
group `n < 64`. -/
def encode6 (n : Nat) : Char :=
  if n < 26 then Char.ofNat (65 + n)
  else if n < 52 then Char.ofNat (71 + n)
  else if n < 62 then Char.ofNat (n - 4)
  else if n = 62 then '+' else '/'

/-- Inverse alphabet lookup: the six-bit value of a base64 character. -/
def decode6 (c : Char) : Option Nat :=
  let v := c.toNat
  if 65 ≤ v ∧ v ≤ 90 then some (v - 65)
  else if 97 ≤ v ∧ v ≤ 122 then some (v - 71)
  else if 48 ≤ v ∧ v ≤ 57 then some (v + 4)
  else if v = 43 then some 62
  else if v = 47 then some 63
  else none

/-- Base64 encoding of a byte list (bytes are `Nat` values below 256),
RFC 4648 with `=` padding, as produced by Python `base64.b64encode`. -/
def b64encode : List Nat → List Char
  | [] => []
  | [a] => [encode6 (a / 4), encode6 (a % 4 * 16), '=', '=']
  | [a, b] => [encode6 (a / 4), encode6 (a % 4 * 16 + b / 16), encode6 (b % 16 * 4), '=']
  | a :: b :: c :: rest =>
    encode6 (a / 4) :: encode6 (a % 4 * 16 + b / 16) :: encode6 (b % 16 * 4 + c / 64) ::
      encode6 (c % 64) :: b64encode rest

/-- Strict base64 decoding of four-character groups with trailing padding. -/
def b64decodeStrict : List Char → Option (List Nat)
  | [] => some []
  | c1 :: c2 :: c3 :: c4 :: rest =>
    match decode6 c1, decode6 c2 with
    | some n1, some n2 =>
      if c3 = '=' then
        if c4 = '=' then
          if rest = [] then some [n1 * 4 + n2 / 16] else none
        else none
      else
        match decode6 c3 with
        | some n3 =>
          if c4 = '=' then
            if rest = [] then some [n1 * 4 + n2 / 16, n2 % 16 * 16 + n3 / 4] else none
          else
            match decode6 c4, b64decodeStrict rest with
            | some n4, some bs =>
              some ((n1 * 4 + n2 / 16) :: (n2 % 16 * 16 + n3 / 4) :: (n3 % 4 * 64 + n4) :: bs)
            | _, _ => none
        | none => none
    | _, _ => none
  | _ => none

/-- A character kept by Python's lenient `b64decode`: alphabet or padding. -/
def isB64OrPad (c : Char) : Bool := (decode6 c).isSome || c = '='

/-- Model of Python `base64.b64decode` in its default lenient mode: characters
outside the alphabet are discarded, then the groups are decoded strictly;
`none` models the decode raising (caught by `get_paginated_results`). -/
def pyB64decode (s : List Char) : Option (List Nat) :=
  b64decodeStrict (s.filter isB64OrPad)

theorem decode6_encode6 {n : Nat} (h : n < 64) : decode6 (encode6 n) = some n := by
  have : ∀ m : Fin 64, decode6 (encode6 m.val) = some m.val := by decide
  exact this ⟨n, h⟩

theorem encode6_ne_pad {n : Nat} (h : n < 64) : encode6 n ≠ '=' := by
  have : ∀ m : Fin 64, encode6 m.val ≠ '=' := by decide
  exact this ⟨n, h⟩

theorem isB64OrPad_encode6 {n : Nat} (h : n < 64) : isB64OrPad (encode6 n) = true := by
  simp [isB64OrPad, decode6_encode6 h]

theorem b64encode_chars : ∀ (l : List Nat), (∀ b ∈ l, b < 256) →
    ∀ c ∈ b64encode l, isB64OrPad c = true
  | [], _, c, hc => by simp [b64encode] at hc
  | [a], h, c, hc => by
    have ha : a < 256 := h a (by simp)
    simp only [b64encode, List.mem_cons, List.not_mem_nil, or_false] at hc
    rcases hc with h1 | h1 | h1 | h1 <;> subst h1 <;>
      first
        | exact isB64OrPad_encode6 (by omega)
        | rfl
  | [a, b], h, c, hc => by
    have ha : a < 256 := h a (by simp)
    have hb : b < 256 := h b (by simp)
    simp only [b64encode, List.mem_cons, List.not_mem_nil, or_false] at hc
    rcases hc with h1 | h1 | h1 | h1 <;> subst h1 <;>
      first
        | exact isB64OrPad_encode6 (by omega)
        | rfl
  | a :: b :: c :: rest, h, x, hx => by
    have ha : a < 256 := h a (by simp)
    have hb : b < 256 := h b (by simp)
    have hc : c < 256 := h c (by simp)
    simp only [b64encode, List.mem_cons] at hx
    rcases hx with h1 | h1 | h1 | h1 | h1
    · subst h1; exact isB64OrPad_encode6 (by omega)
    · subst h1; exact isB64OrPad_encode6 (by omega)
    · subst h1; exact isB64OrPad_encode6 (by omega)
    · subst h1; exact isB64OrPad_encode6 (by omega)
    · exact b64encode_chars rest (fun y hy => h y (by simp [hy])) x h1

theorem b64decodeStrict_b64encode : ∀ (l : List Nat), (∀ b ∈ l, b < 256) →
    b64decodeStrict (b64encode l) = some l
  | [], _ => rfl
  | [a], h => by
    have ha : a < 256 := h a (by simp)
    have h1 : a / 4 < 64 := by omega
    have h2 : a % 4 * 16 < 64 := by omega
    simp only [b64encode, b64decodeStrict, decode6_encode6 h1, decode6_encode6 h2]
    simp only [reduceIte]
    simp only [Option.some.injEq, List.cons.injEq, and_true]
    omega
  | [a, b], h => by
    have ha : a < 256 := h a (by simp)
    have hb : b < 256 := h b (by simp)
    have h1 : a / 4 < 64 := by omega
    have h2 : a % 4 * 16 + b / 16 < 64 := by omega
    have h3 : b % 16 * 4 < 64 := by omega
    simp only [b64encode, b64decodeStrict, decode6_encode6 h1, decode6_encode6 h2,
      decode6_encode6 h3]
    rw [if_neg (encode6_ne_pad h3)]
    simp only [reduceIte]
    simp only [Option.some.injEq, List.cons.injEq, and_true]
    omega
  | a :: b :: c :: rest, h => by
    have ha : a < 256 := h a (by simp)
    have hb : b < 256 := h b (by simp)
    have hc : c < 256 := h c (by simp)
    have ih := b64decodeStrict_b64encode rest (fun y hy => h y (by simp [hy]))
    have h1 : a / 4 < 64 := by omega
    have h2 : a % 4 * 16 + b / 16 < 64 := by omega
    have h3 : b % 16 * 4 + c / 64 < 64 := by omega
    have h4 : c % 64 < 64 := by omega
    simp only [b64encode, b64decodeStrict, decode6_encode6 h1, decode6_encode6 h2,
      decode6_encode6 h3, decode6_encode6 h4, ih]
    rw [if_neg (encode6_ne_pad h3), if_neg (encode6_ne_pad h4)]
    simp only [Option.some.injEq, List.cons.injEq, and_true]
    refine ⟨by omega, by omega, by omega⟩

theorem b64encode_filter (l : List Nat) (h : ∀ b ∈ l, b < 256) :
    (b64encode l).filter isB64OrPad = b64encode l :=
  List.filter_eq_self.mpr (b64encode_chars l h)

/-- Round trip: decoding an encoded byte list recovers it exactly. -/
theorem pyB64decode_b64encode (l : List Nat) (h : ∀ b ∈ l, b < 256) :
    pyB64decode (b64encode l) = some l := by
  rw [pyB64decode, b64encode_filter l h]
  exact b64decodeStrict_b64encode l h

/-! ### Pagination engine (`CassandraDAO.get_paginated_results`, dao.py 479-514)

The Cassandra session is abstracted as a function from an optional native
paging marker (a byte list) to the page of rows (abstracted as `Nat` row ids)
and the optional next native marker.  The query, params and fetch size are
fixed inside this abstraction, matching one call site. -/

/-- Abstraction of the driver: executing the (fixed) query resuming from an
optional native paging marker yields rows and an optional next marker. -/
structure PageStore where
  run : Option (List Nat) → List Nat × Option (List Nat)

/-- The warning text logged by `get_paginated_results` on a bad cursor. -/
def invalidPagingWarning : String := "Invalid paging state"

/-- Embedding of `CassandraDAO.get_paginated_results`: decode the incoming
base64 cursor (a caught decode failure leaves the paging state `None` and logs
a warning), run the query, and base64-encode a truthy next marker.  Returns
`((rows, next cursor), logged warnings)`. -/
def get_paginated_results (store : PageStore) (paging_state : Option (List Char)) :
    (List Nat × Option (List Char)) × List String :=
  let dec : Option (List Nat) × List String :=
    match paging_state with
    | none => (none, [])
    | some s =>
      if s = [] then (none, [])
      else
        match pyB64decode s with
        | some m => (some m, [])
        | none => (none, [invalidPagingWarning])
  let res := store.run dec.1
  let nextCursor : Option (List Char) :=
    match res.2 with
    | none => none
    | some m => if m = [] then none else some (b64encode m)
  ((res.1, nextCursor), dec.2)

/-- C4: for every page call given a malformed cursor string (one that fails
base64 decoding), the call does not fail: the decode failure is treated as
"start from the beginning" — the query executes with no paging state and
returns the first page (same rows and next cursor as a cursorless call) — and
a warning is logged. -/
theorem malformed_cursor_returns_first_page (store : PageStore) (s : List Char)
    (hne : s ≠ []) (hfail : pyB64decode s = none) :
    get_paginated_results store (some s) =
      ((get_paginated_results store none).1, [invalidPagingWarning]) := by
  simp [get_paginated_results, hne, hfail]

/-- Concrete store used to witness the pagination theorems. -/
def demoPageStore : PageStore where
  run := fun st =>
    match st with
    | none => ([10, 11], some [0, 1, 255])
    | some [0, 1, 255] => ([12], none)
    | some _ => ([], none)

/-- Witness for C4 at a concrete malformed cursor and store. -/
theorem malformed_cursor_returns_first_page_witness :
    get_paginated_results demoPageStore (some ['a', 'b', 'c']) =
      ((get_paginated_results demoPageStore none).1, [invalidPagingWarning]) :=
  malformed_cursor_returns_first_page demoPageStore ['a', 'b', 'c'] (by decide) (by decide)

/-- C9: for every native paging marker emitted by the store (a nonempty byte
list), the pagination engine returns it as the base64 text encoding, decoding
that external cursor recovers exactly the original marker (decoding is a left
inverse of encoding), and passing the cursor back into a subsequent page call
resumes the query from exactly that marker. -/
theorem paging_cursor_roundtrip (store : PageStore) (m rows : List Nat)
    (hm : m ≠ []) (hv : ∀ b ∈ m, b < 256) (hrun : store.run none = (rows, some m)) :
    (get_paginated_results store none).1.2 = some (b64encode m) ∧
    pyB64decode (b64encode m) = some m ∧
    get_paginated_results store (some (b64encode m)) =
      (((store.run (some m)).1,
        match (store.run (some m)).2 with
        | none => none
        | some m2 => if m2 = [] then none else some (b64encode m2)), []) := by
  have henc : b64encode m ≠ [] := by
    match m, hm with
    | [a], _ => simp [b64encode]
    | [a, b], _ => simp [b64encode]
    | a :: b :: c :: rest, _ => simp [b64encode]
  have hdec : pyB64decode (b64encode m) = some m := pyB64decode_b64encode m hv
  refine ⟨?_, hdec, ?_⟩
  · simp only [get_paginated_results, hrun]
    simp [hm]
  · simp only [get_paginated_results, if_neg henc, hdec]

/-- Witness for C9 at a concrete marker and store. -/
theorem paging_cursor_roundtrip_witness :
    (get_paginated_results demoPageStore none).1.2 = some (b64encode [0, 1, 255]) ∧
    pyB64decode (b64encode [0, 1, 255]) = some [0, 1, 255] ∧
    get_paginated_results demoPageStore (some (b64encode [0, 1, 255])) =
      (((demoPageStore.run (some [0, 1, 255])).1,
        match (demoPageStore.run (some [0, 1, 255])).2 with
        | none => none
        | some m2 => if m2 = [] then none else some (b64encode m2)), []) :=
  paging_cursor_roundtrip demoPageStore [0, 1, 255] [10, 11] (by decide) (by decide) rfl

/-! ### Statement cache and batch writer
(`CassandraDAO.execute_statement`, dao.py 470-477, and
`CassandraDAO.execute_batch`, dao.py 451-468)

`prepared_statements` is modelled by the list of registered logical names;
a bound parameter tuple is abstracted as a list of strings. -/

/-- The fixed statement catalog registered by `_prepare_statements`
(dao.py 303-449), in source order. -/
def preparedStatementNames : List String :=
  ["get_player_profile", "get_market_history", "insert_player_profile",
   "insert_player_by_team", "insert_market_value", "insert_market_value_ttl",
   "upsert_latest_market_value", "insert_transfer", "insert_top_transfer",
   "insert_injury", "insert_injury_ttl", "delete_injury",
   "insert_club_performance", "insert_national_performance",
   "insert_team_details", "insert_team_child", "insert_team_competition",
   "insert_teammate", "insert_player_by_position",
   "insert_player_by_nationality", "insert_player_search_index"]

/-- Bound parameters of one statement execution, abstracted. -/
abbrev StmtParams := List String

/-- Embedding of `CassandraDAO.execute_statement`: looks the name up in the
cache and executes the prepared statement, raising `ValueError` (modelled as
`Except.error`) when the name was never registered. -/
def execute_statement (prepared : List String) (stmt_name : String)
    (params : StmtParams) : Except String (String × StmtParams) :=
  if stmt_name ∈ prepared then Except.ok (stmt_name, params)
  else Except.error ("Unknown prepared statement: " ++ stmt_name)

/-- Embedding of `CassandraDAO.execute_batch`: empty input is a no-op, each
entry whose name is in the cache is added to the batch, and the batch is
executed only when it is nonempty.  The result is the list of entries actually
executed (`none` when nothing was executed); no exception is ever raised for
an unknown name — such entries are simply not added. -/
def execute_batch (prepared : List String) (stmts : List (String × StmtParams)) :
    Except String (Option (List (String × StmtParams))) :=
  if stmts = [] then Except.ok none
  else
    let batch := stmts.filter (fun p => decide (p.1 ∈ prepared))
    if batch = [] then Except.ok none else Except.ok (some batch)

/-- The entries a batch call actually executed. -/
def executedEntries : Except String (Option (List (String × StmtParams))) →
    List (String × StmtParams)
  | Except.ok none => []
  | Except.ok (some l) => l
  | Except.error _ => []

/-- C2 counterexample: an `execute_batch` call whose input list contains an
entry under a never-registered name succeeds silently (no error is surfaced
and the entry is dropped), refuting the claim that an unknown statement name
is surfaced on every execution path including entries of the executeBatch
input list. -/
theorem batch_unknown_name_silently_ignored :
    execute_batch preparedStatementNames [("bogus_stmt", [])] = Except.ok none ∧
    "bogus_stmt" ∉ preparedStatementNames := by
  constructor
  · rfl
  · decide

/-- C2 (amended): a single `execute_statement` under a never-registered name
always fails with the unknown-statement error and a registered name executes;
`execute_batch`, however, never surfaces an error for unknown names — it
executes exactly the entries of its input whose names are registered and
silently skips the rest. -/
theorem unknown_statement_behaviour (prepared : List String) (stmt_name : String)
    (params : StmtParams) (stmts : List (String × StmtParams)) :
    (stmt_name ∉ prepared →
      execute_statement prepared stmt_name params =
        Except.error ("Unknown prepared statement: " ++ stmt_name)) ∧
    (stmt_name ∈ prepared →
      execute_statement prepared stmt_name params = Except.ok (stmt_name, params)) ∧
    (∀ e, execute_batch prepared stmts ≠ Except.error e) ∧
    executedEntries (execute_batch prepared stmts) =
      stmts.filter (fun p => decide (p.1 ∈ prepared)) := by
  refine ⟨fun h => by simp [execute_statement, h], fun h => by simp [execute_statement, h], ?_, ?_⟩
  · intro e
    by_cases h0 : stmts = [] <;> by_cases h1 : stmts.filter (fun p => decide (p.1 ∈ prepared)) = [] <;>
      simp [execute_batch, h0, h1]
  · by_cases h0 : stmts = []
    · subst h0; rfl
    · by_cases h1 : stmts.filter (fun p => decide (p.1 ∈ prepared)) = [] <;>
        simp [execute_batch, executedEntries, h0, h1]

/-- Witness for the amended C2 at concrete inputs: an unregistered name errors
in `execute_statement`, while a batch holding one registered and one bogus
entry executes only the registered one without error. -/
theorem unknown_statement_behaviour_witness :
    execute_statement preparedStatementNames "bogus_stmt" ["p"] =
      Except.error ("Unknown prepared statement: " ++ "bogus_stmt") ∧
    executedEntries (execute_batch preparedStatementNames
        [("insert_transfer", ["p1"]), ("bogus_stmt", ["p2"])]) =
      [("insert_transfer", ["p1"])] := by
  have h := unknown_statement_behaviour preparedStatementNames "bogus_stmt" ["p"]
    [("insert_transfer", ["p1"]), ("bogus_stmt", ["p2"])]
  refine ⟨h.1 (by decide), ?_⟩
  rw [h.2.2.2]
  rfl

/-! ### Latest market value view
(`add_market_value`, main.py 268-304, and `ingest_market_values`,
ingest_market_values.py 91-101)

Dates are modelled as integer ordinals.  Both writers guard the overwrite of
`latest_market_value_by_player` with the same strict comparison:
`main.py`: `if not latest_rows or market_value.as_of_date > latest_rows[0].as_of_date`,
`ingest_market_values.py`: `if player_id not in latest_values or record['date'] > latest_values[player_id]['date']`. -/

/-- One market value record for a player. -/
structure MarketValueRecord where
  as_of_date : Int
  market_value_eur : Int
  source : String
deriving DecidableEq, Repr

/-- Embedding of the latest-value maintenance step: given the stored
latest-value row (if any) and a newly written record, the row the
latest-value table holds afterwards. -/
def update_latest_market_value (stored : Option MarketValueRecord)
    (new : MarketValueRecord) : Option MarketValueRecord :=
  match stored with
  | none => some new
  | some old => if new.as_of_date > old.as_of_date then some new else some old

/-- The latest-value row after inserting records one at a time, in order,
starting from no row. -/
def latest_after_inserts (records : List MarketValueRecord) : Option MarketValueRecord :=
  records.foldl update_latest_market_value none

/-- C1 counterexample: a new record whose date equals the stored date (hence
is "not earlier" than it) does not overwrite the latest-value row — the writer
keeps the stored record, refuting the claimed overwrite condition. -/
theorem latest_value_equal_date_not_overwritten :
    update_latest_market_value (some ⟨5, 100, "history"⟩) ⟨5, 200, "latest"⟩ =
      some ⟨5, 100, "history"⟩ ∧
    ¬ ((5 : Int) < 5) := by
  exact ⟨rfl, by decide⟩

theorem foldl_update_latest (l : List MarketValueRecord) :
    ∀ a : MarketValueRecord,
      ∃ r, l.foldl update_latest_market_value (some a) = some r ∧ (r = a ∨ r ∈ l) ∧
        a.as_of_date ≤ r.as_of_date ∧ ∀ x ∈ l, x.as_of_date ≤ r.as_of_date := by
  induction l with
  | nil => exact fun a => ⟨a, rfl, Or.inl rfl, le_refl _, by simp⟩
  | cons b t ih =>
    intro a
    by_cases hb : b.as_of_date > a.as_of_date
    · obtain ⟨r, hr, hmem, hle, hall⟩ := ih b
      refine ⟨r, ?_, ?_, by omega, ?_⟩
      · simpa [update_latest_market_value, List.foldl_cons, if_pos hb] using hr
      · rcases hmem with h | h
        · exact Or.inr (by simp [h])
        · exact Or.inr (by simp [h])
      · intro x hx
        rcases List.mem_cons.mp hx with h | h
        · subst h; omega
        · exact hall x h
    · obtain ⟨r, hr, hmem, hle, hall⟩ := ih a
      refine ⟨r, ?_, ?_, hle, ?_⟩
      · simpa [update_latest_market_value, List.foldl_cons, if_neg hb] using hr
      · rcases hmem with h | h
        · exact Or.inl h
        · exact Or.inr (by simp [h])
      · intro x hx
        rcases List.mem_cons.mp hx with h | h
        · subst h; omega
        · exact hall x h

/-- C1 (amended): the writer overwrites the latest-value row exactly when the
new record's date is strictly later than the stored date (or no row exists
yet); consequently, after inserting records for one player in arbitrary order,
the latest-value row holds a record of maximum date among those inserted, not
the most-recently-inserted one. -/
theorem latest_value_invariant (old new : MarketValueRecord)
    (records : List MarketValueRecord) (hne : records ≠ []) :
    update_latest_market_value none new = some new ∧
    (old.as_of_date < new.as_of_date →
      update_latest_market_value (some old) new = some new) ∧
    (new.as_of_date ≤ old.as_of_date →
      update_latest_market_value (some old) new = some old) ∧
    ∃ r, latest_after_inserts records = some r ∧ r ∈ records ∧
      ∀ x ∈ records, x.as_of_date ≤ r.as_of_date := by
  refine ⟨rfl, fun h => by simp [update_latest_market_value, if_pos h], fun h => ?_, ?_⟩
  · have : ¬ new.as_of_date > old.as_of_date := by omega
    simp [update_latest_market_value, if_neg this]
  · match records, hne with
    | h0 :: t, _ =>
      obtain ⟨r, hr, hmem, hle, hall⟩ := foldl_update_latest t h0
      refine ⟨r, ?_, ?_, ?_⟩
      · simpa [latest_after_inserts, update_latest_market_value] using hr
      · rcases hmem with h | h
        · exact h ▸ List.mem_cons_self h0 t
        · exact List.mem_cons_of_mem h0 h
      · intro x hx
        rcases List.mem_cons.mp hx with h | h
        · subst h; exact hle
        · exact hall x h

/-- Witness for the amended C1 at concrete inputs (the spec's §8 scenario:
values at dates 2021, 2022, 2020 inserted in that order). -/
theorem latest_value_invariant_witness :
    update_latest_market_value none ⟨2022, 150, "s"⟩ = some ⟨2022, 150, "s"⟩ ∧
    ((2021 : Int) < 2022 →
      update_latest_market_value (some ⟨2021, 100, "s"⟩) ⟨2022, 150, "s"⟩ =
        some ⟨2022, 150, "s"⟩) ∧
    ((2022 : Int) ≤ 2021 →
      update_latest_market_value (some ⟨2021, 100, "s"⟩) ⟨2022, 150, "s"⟩ =
        some ⟨2021, 100, "s"⟩) ∧
    ∃ r, latest_after_inserts
        [⟨2021, 100, "s"⟩, ⟨2022, 150, "s"⟩, ⟨2020, 90, "s"⟩] = some r ∧
      r ∈ [⟨2021, 100, "s"⟩, ⟨2022, 150, "s"⟩, ⟨2020, 90, "s"⟩] ∧
      ∀ x ∈ [(⟨2021, 100, "s"⟩ : MarketValueRecord), ⟨2022, 150, "s"⟩, ⟨2020, 90, "s"⟩],
        x.as_of_date ≤ r.as_of_date :=
  latest_value_invariant ⟨2021, 100, "s"⟩ ⟨2022, 150, "s"⟩
    [⟨2021, 100, "s"⟩, ⟨2022, 150, "s"⟩, ⟨2020, 90, "s"⟩] (by simp)

/-! ### Advanced player search (`advanced_player_search`, main.py 765-925)

Strings are modelled as `List Char`; Python truthiness of an optional string
(`None` and `""` falsy) and optional int (`None` and `0` falsy) is made
explicit.  A row's birth date is `none` (NULL), `some none` (present but its
birth year cannot be extracted — the `except` branch of the age computation),
or `some (some y)` (birth year `y`).  Dates/years are integers. -/

/-- Python truthiness of an optional string. -/
def truthyStr : Option (List Char) → Bool
  | none => false
  | some s => !s.isEmpty

/-- Python truthiness of an optional integer. -/
def truthyInt : Option Int → Bool
  | none => false
  | some n => n != 0

/-- Model of Python `str.lower` (ASCII case folding). -/
def pyLower (s : List Char) : List Char := s.map Char.toLower

/-- The `AdvancedSearchFilters` request model (main.py 755-763). -/
structure AdvancedSearchFilters where
  name : Option (List Char) := none
  position : Option (List Char) := none
  nationality : Option (List Char) := none
  team_id : Option (List Char) := none
  min_age : Option Int := none
  max_age : Option Int := none
  min_market_value : Option Int := none
  max_market_value : Option Int := none
deriving DecidableEq, Repr

/-- The four tables a search can be driven from (strategies 1-4). -/
inductive DrivingTable
  | players_by_position
  | players_by_nationality
  | players_search_index_range
  | players_search_index_full
deriving DecidableEq, Repr

/-- A driving query: the table, the bound partition/range parameters, and the
fetch size passed to the pagination engine. -/
structure DrivingQuery where
  table : DrivingTable
  params : List (List Char)
  fetch_size : Nat
deriving DecidableEq, Repr

/-- The single fixed partition value of `players_search_index`. -/
def allPartition : List Char := ['a', 'l', 'l']

/-- Embedding of main.py 817:
`name_end = name_lower[:-1] + chr(ord(name_lower[-1]) + 1) if name_lower else 'z'` —
the upper bound of the half-open prefix range. -/
def nameRangeUpperBound : List Char → List Char
  | [] => ['z']
  | c :: cs =>
    (c :: cs).dropLast ++ [Char.ofNat (((c :: cs).getLast (List.cons_ne_nil c cs)).toNat + 1)]

/-- Embedding of the driving-table selection (main.py 776-835): strategy 1
(position truthy, nationality falsy), strategy 2 (nationality truthy,
position falsy), strategy 3 (name truthy), strategy 4 (full scan of the
`'all'` partition).  Strategies 1-3 fetch `page_size * 3`, strategy 4
fetches `page_size * 5`. -/
def select_driving_query (f : AdvancedSearchFilters) (page_size : Nat) : DrivingQuery :=
  if truthyStr f.position && !truthyStr f.nationality then
    ⟨.players_by_position, [f.position.getD []], page_size * 3⟩
  else if truthyStr f.nationality && !truthyStr f.position then
    ⟨.players_by_nationality, [f.nationality.getD []], page_size * 3⟩
  else if truthyStr f.name then
    let name_lower := pyLower (f.name.getD [])
    ⟨.players_search_index_range,
      [allPartition, name_lower, nameRangeUpperBound name_lower], page_size * 3⟩
  else
    ⟨.players_search_index_full, [allPartition], page_size * 5⟩

/-- A row returned by a driving query. -/
structure PlayerRow where
  player_id : List Char
  player_name : Option (List Char)
  position : Option (List Char)
  nationality : Option (List Char)
  team_id : Option (List Char)
  team_name : Option (List Char)
  birth_date : Option (Option Int)
  market_value_eur : Option Int
deriving DecidableEq, Repr

/-- Python substring test `needle in hay`. -/
def strContains (needle : List Char) : List Char → Bool
  | [] => needle.isEmpty
  | c :: rest => needle.isPrefixOf (c :: rest) || strContains needle rest

/-- The age-filter exclusion of the in-process pass (main.py 855-881): a
parseable birth year is turned into an age checked against the (truthy)
bounds; a present but unparseable birth date or a missing birth date excludes
the row exactly when an age filter is active. -/
def age_filter_excludes (f : AdvancedSearchFilters) (current_year : Int)
    (r : PlayerRow) : Bool :=
  match r.birth_date with
  | some (some y) =>
    let age := current_year - y
    (truthyInt f.min_age && decide (age < f.min_age.getD 0)) ||
    (truthyInt f.max_age && decide (age > f.max_age.getD 0))
  | some none => truthyInt f.min_age || truthyInt f.max_age
  | none => truthyInt f.min_age || truthyInt f.max_age

/-- The market-value exclusion (main.py 884-887): an active bound excludes a
row whose market value is falsy (NULL or 0) or outside the bound. -/
def market_value_excludes (f : AdvancedSearchFilters) (r : PlayerRow) : Bool :=
  (truthyInt f.min_market_value &&
    (!truthyInt r.market_value_eur ||
      decide (r.market_value_eur.getD 0 < f.min_market_value.getD 0))) ||
  (truthyInt f.max_market_value &&
    (!truthyInt r.market_value_eur ||
      decide (r.market_value_eur.getD 0 > f.max_market_value.getD 0)))

/-- One row of the in-process filter pass (main.py 841-887): the row survives
when none of the `continue` branches (name substring, position, nationality,
team, age, market value) fires.  The exclusions are combined by disjunction,
which is equivalent to the source's early-`continue` chain. -/
def row_passes (f : AdvancedSearchFilters) (current_year : Int) (r : PlayerRow) : Bool :=
  !((truthyStr f.name &&
      !strContains (pyLower (f.name.getD [])) (pyLower (r.player_name.getD []))) ||
    (truthyStr f.position && !(r.position == f.position)) ||
    (truthyStr f.nationality && !(r.nationality == f.nationality)) ||
    (truthyStr f.team_id && !(r.team_id == f.team_id)) ||
    age_filter_excludes f current_year r ||
    market_value_excludes f r)

/-- The filtering loop over the fetched rows (main.py 841-905): surviving rows
are collected in order, and the loop breaks as soon as `page_size` rows have
been collected. -/
def search_filter_loop (f : AdvancedSearchFilters) (current_year : Int) :
    List PlayerRow → Nat → List PlayerRow
  | [], _ => []
  | r :: rest, remaining =>
    if row_passes f current_year r then
      if remaining ≤ 1 then [r]
      else r :: search_filter_loop f current_year rest (remaining - 1)
    else search_filter_loop f current_year rest remaining

/-- Abstraction of `dao.get_paginated_results` as used by the search endpoint:
running a driving query with a cursor yields rows and the next cursor. -/
structure SearchStore where
  run : DrivingQuery → Option (List Char) → List PlayerRow × Option (List Char)

/-- The `PaginatedResponse` of the endpoint, with the formatted row dicts
abstracted by the surviving rows. -/
structure SearchResponse where
  data : List PlayerRow
  paging_state : Option (List Char)
  has_more : Bool
deriving DecidableEq, Repr

/-- Embedding of the `advanced_player_search` endpoint (main.py 765-921):
select the driving query, fetch a page, filter in-process with the page-size
break, and report a continuation cursor only on an exactly full page. -/
def advanced_player_search (store : SearchStore) (f : AdvancedSearchFilters)
    (current_year : Int) (page_size : Nat) (paging_state : Option (List Char)) :
    SearchResponse :=
  let q := select_driving_query f page_size
  let res := store.run q paging_state
  let filtered := search_filter_loop f current_year res.1 page_size
  { data := filtered
    paging_state := if filtered.length = page_size then res.2 else none
    has_more := res.2.isSome && (filtered.length == page_size) }

theorem select_driving_query_name_case (f : AdvancedSearchFilters) (page_size : Nat)
    (hpn : truthyStr f.position = truthyStr f.nationality)
    (hname : truthyStr f.name = true) :
    select_driving_query f page_size =
      ⟨.players_search_index_range,
        [allPartition, pyLower (f.name.getD []),
          nameRangeUpperBound (pyLower (f.name.getD []))], page_size * 3⟩ := by
  cases hp : truthyStr f.position <;> rw [hp] at hpn <;>
    simp [select_driving_query, hp, ← hpn, hname]

/-- C3: exactly one driving table is selected by the priority — position
truthy and nationality falsy drives `players_by_position`; nationality truthy
and position falsy drives `players_by_nationality`; otherwise a truthy name
drives the search index with a prefix range; otherwise the full search index
under its single fixed partition value `'all'` is driven — in particular a
position-only filter never drives the full-scan table — and the driving query
over-fetches 3 to 5 times the requested page size. -/
theorem driving_table_selection (f : AdvancedSearchFilters) (page_size : Nat) :
    (truthyStr f.position = true → truthyStr f.nationality = false →
      select_driving_query f page_size =
        ⟨.players_by_position, [f.position.getD []], page_size * 3⟩) ∧
    (truthyStr f.nationality = true → truthyStr f.position = false →
      select_driving_query f page_size =
        ⟨.players_by_nationality, [f.nationality.getD []], page_size * 3⟩) ∧
    (truthyStr f.position = truthyStr f.nationality → truthyStr f.name = true →
      select_driving_query f page_size =
        ⟨.players_search_index_range,
          [allPartition, pyLower (f.name.getD []),
            nameRangeUpperBound (pyLower (f.name.getD []))], page_size * 3⟩) ∧
    (truthyStr f.position = truthyStr f.nationality → truthyStr f.name = false →
      select_driving_query f page_size =
        ⟨.players_search_index_full, [allPartition], page_size * 5⟩) ∧
    (truthyStr f.position = true → truthyStr f.nationality = false →
      (select_driving_query f page_size).table ≠ .players_search_index_full) ∧
    page_size * 3 ≤ (select_driving_query f page_size).fetch_size ∧
    (select_driving_query f page_size).fetch_size ≤ page_size * 5 := by
  refine ⟨?_, ?_, ?_, ?_, ?_, ?_⟩
  · intro h1 h2; simp [select_driving_query, h1, h2]
  · intro h1 h2; simp [select_driving_query, h1, h2]
  · exact select_driving_query_name_case f page_size
  · intro h1 h2
    cases hp : truthyStr f.position <;> rw [hp] at h1 <;>
      simp [select_driving_query, hp, ← h1, h2]
  · intro h1 h2; simp [select_driving_query, h1, h2]
  · by_cases h1 : (truthyStr f.position && !truthyStr f.nationality) = true
    · simp [select_driving_query, h1]; omega
    · by_cases h2 : (truthyStr f.nationality && !truthyStr f.position) = true
      · simp [select_driving_query, h1, h2]; omega
      · by_cases h3 : truthyStr f.name = true <;>
          simp [select_driving_query, h1, h2, h3] <;> omega

/-- Concrete position-only filter used by witnesses. -/
def positionOnlyFilters : AdvancedSearchFilters :=
  { position := some ['G', 'K'] }

/-- Witness for C3: the position-only filter drives `players_by_position`
with a three-fold over-fetch. -/
theorem driving_table_selection_witness :
    select_driving_query positionOnlyFilters 20 =
      ⟨.players_by_position, [['G', 'K']], 20 * 3⟩ ∧
    (select_driving_query positionOnlyFilters 20).table ≠ .players_search_index_full := by
  have h := driving_table_selection positionOnlyFilters 20
  exact ⟨h.1 (by decide) (by decide), h.2.2.2.2.1 (by decide) (by decide)⟩

theorem nameRangeUpperBound_eq (l : List Char) (h : l ≠ []) :
    nameRangeUpperBound l = l.dropLast ++ [Char.ofNat ((l.getLast h).toNat + 1)] := by
  match l, h with
  | c :: cs, _ => rfl

/-- C6: a name-driven advanced search queries the search index over a
half-open range on the lowered name column whose lower bound is the lowercased
name and whose upper bound is the lowercased name with its last character's
code point incremented by one; for the empty lowered name the upper bound
falls back to the fixed sentinel `'z'`. -/
theorem name_range_bounds (f : AdvancedSearchFilters) (page_size : Nat)
    (hpn : truthyStr f.position = truthyStr f.nationality)
    (hname : truthyStr f.name = true) :
    (select_driving_query f page_size).table = .players_search_index_range ∧
    (select_driving_query f page_size).params =
      [allPartition, pyLower (f.name.getD []),
        nameRangeUpperBound (pyLower (f.name.getD []))] ∧
    nameRangeUpperBound [] = ['z'] ∧
    ∀ (cs : List Char) (c : Char),
      nameRangeUpperBound (cs ++ [c]) = cs ++ [Char.ofNat (c.toNat + 1)] := by
  have hsel := select_driving_query_name_case f page_size hpn hname
  refine ⟨by rw [hsel], by rw [hsel], rfl, ?_⟩
  intro cs c
  rw [nameRangeUpperBound_eq (cs ++ [c]) (by simp)]
  rw [List.dropLast_concat]
  congr 2
  rw [List.getLast_concat]

/-- Concrete name-only filter used by witnesses. -/
def nameOnlyFilters : AdvancedSearchFilters :=
  { name := some ['L', 'e', 'o'] }

/-- Witness for C6: searching for the name `"Leo"` drives the search index
with the half-open range `["leo", "lep")`. -/
theorem name_range_bounds_witness :
    (select_driving_query nameOnlyFilters 20).table = .players_search_index_range ∧
    (select_driving_query nameOnlyFilters 20).params =
      [allPartition, pyLower (nameOnlyFilters.name.getD []),
        nameRangeUpperBound (pyLower (nameOnlyFilters.name.getD []))] ∧
    nameRangeUpperBound [] = ['z'] ∧
    nameRangeUpperBound (['l', 'e'] ++ ['o']) =
      ['l', 'e'] ++ [Char.ofNat ('o'.toNat + 1)] := by
  have h := name_range_bounds nameOnlyFilters 20 (by decide) (by decide)
  exact ⟨h.1, h.2.1, h.2.2.1, h.2.2.2 ['l', 'e'] 'o'⟩

/-- C5: a continuation cursor is returned only when the surviving rows exactly
fill the requested page size; in every other case — including when the driving
query has more pages — the response carries a null cursor and `has_more` is
false. -/
theorem full_page_cursor_condition (store : SearchStore) (f : AdvancedSearchFilters)
    (current_year : Int) (page_size : Nat) (cursor : Option (List Char)) :
    ((advanced_player_search store f current_year page_size cursor).paging_state ≠ none →
      (advanced_player_search store f current_year page_size cursor).data.length =
        page_size) ∧
    ((advanced_player_search store f current_year page_size cursor).data.length ≠
        page_size →
      (advanced_player_search store f current_year page_size cursor).paging_state =
        none ∧
      (advanced_player_search store f current_year page_size cursor).has_more =
        false) := by
  by_cases hL :
      (search_filter_loop f current_year
        (store.run (select_driving_query f page_size) cursor).1 page_size).length =
      page_size
  · constructor
    · intro _; simpa [advanced_player_search] using hL
    · intro hne
      exact absurd (by simpa [advanced_player_search] using hL) hne
  · constructor
    · intro hsome
      exact absurd (by simp [advanced_player_search, hL]) hsome
    · intro _
      simp [advanced_player_search, hL]

/-- Concrete search store used by witnesses: one matching row per page and a
nonempty native continuation cursor. -/
def demoSearchStore : SearchStore where
  run := fun _ _ =>
    ([{ player_id := ['p', '1'], player_name := some ['L', 'e', 'o'],
        position := some ['G', 'K'], nationality := none, team_id := none,
        team_name := none, birth_date := some (some 2000),
        market_value_eur := some 5 }], some ['X'])

/-- Witness for C5: one surviving row against a requested page size of 20
yields a null cursor and `has_more = false` although the driving query
returned a continuation cursor. -/
theorem full_page_cursor_condition_witness :
    (advanced_player_search demoSearchStore {} 2024 20 none).paging_state = none ∧
    (advanced_player_search demoSearchStore {} 2024 20 none).has_more = false :=
  (full_page_cursor_condition demoSearchStore {} 2024 20 none).2 (by decide)

theorem mem_search_filter_loop (f : AdvancedSearchFilters) (current_year : Int) :
    ∀ (rows : List PlayerRow) (remaining : Nat) (r : PlayerRow),
      r ∈ search_filter_loop f current_year rows remaining →
      row_passes f current_year r = true := by
  intro rows
  induction rows with
  | nil => intro remaining r h; simp [search_filter_loop] at h
  | cons x rest ih =>
    intro remaining r h
    by_cases hp : row_passes f current_year x = true
    · by_cases hr : remaining ≤ 1
      · simp [search_filter_loop, hp, hr] at h
        subst h; exact hp
      · simp [search_filter_loop, hp, hr] at h
        rcases h with h | h
        · subst h; exact hp
        · exact ih _ r h
    · rw [search_filter_loop, if_neg hp] at h
      exact ih _ r h

/-- C8: whenever an age filter is active, a row lacking a birth date, or whose
birth date cannot be parsed into a birth year, fails the in-process filter and
never appears in the search results. -/
theorem age_filter_excludes_unparseable_rows (store : SearchStore)
    (f : AdvancedSearchFilters) (current_year : Int) (page_size : Nat)
    (cursor : Option (List Char)) (r : PlayerRow)
    (hactive : truthyInt f.min_age = true ∨ truthyInt f.max_age = true)
    (hbad : r.birth_date = none ∨ r.birth_date = some none) :
    row_passes f current_year r = false ∧
    r ∉ (advanced_player_search store f current_year page_size cursor).data := by
  have hexcl : age_filter_excludes f current_year r = true := by
    rcases hbad with h | h <;>
      simp only [age_filter_excludes, h] <;>
      rcases hactive with h2 | h2 <;> simp [h2]
  have hfail : row_passes f current_year r = false := by
    simp [row_passes, hexcl]
  refine ⟨hfail, ?_⟩
  intro hmem
  have hpass := mem_search_filter_loop f current_year
    (store.run (select_driving_query f page_size) cursor).1 page_size r
    (by simpa [advanced_player_search] using hmem)
  rw [hfail] at hpass
  exact Bool.false_ne_true hpass

/-- Concrete filter with an active minimum age, and a row with no birth date,
used to witness C8. -/
def minAgeFilters : AdvancedSearchFilters := { min_age := some 18 }

/-- Row lacking a birth date, used to witness C8. -/
def rowNoBirthDate : PlayerRow :=
  { player_id := ['p', '2'], player_name := some ['B', 'o', 'b'],
    position := none, nationality := none, team_id := none, team_name := none,
    birth_date := none, market_value_eur := some 5 }

/-- Witness for C8: with `min_age = 18` active, the row without a birth date
fails the filter and is absent from the results. -/
theorem age_filter_excludes_unparseable_rows_witness :
    row_passes minAgeFilters 2024 rowNoBirthDate = false ∧
    rowNoBirthDate ∉
      (advanced_player_search demoSearchStore minAgeFilters 2024 20 none).data :=
  age_filter_excludes_unparseable_rows demoSearchStore minAgeFilters 2024 20 none
    rowNoBirthDate (Or.inl (by decide)) (Or.inl rfl)

/-! ### Pre-aggregated top transfers
(`ingest_transfers`, ingest_transfers.py 75-125, and the
`top_transfers_by_season` clustering order, dao.py 148-159)

A record is tracked for pre-aggregation only when its season is truthy and its
fee is positive (`if season and fee_eur > 0`); per season the records are
sorted with Python's stable `sorted(transfers, key=lambda x: (-x['fee_eur'],
x['player_id']))` — embedded as Mathlib's stable `insertionSort` under the
same key order — and the first 100 (`sorted_transfers[:100]`) are written. -/

/-- One transfer record after column mapping. -/
structure TransferRec where
  player_id : String
  season : String
  transfer_date : Int
  from_team_id : String
  to_team_id : String
  fee_eur : Int
deriving DecidableEq, Repr

/-- The sort key order of ingest_transfers.py 105: fee descending, then
player id ascending (the ascending lexicographic order of `(-fee, pid)`). -/
def transferKeyOrder (a b : TransferRec) : Prop :=
  b.fee_eur < a.fee_eur ∨ (a.fee_eur = b.fee_eur ∧ a.player_id ≤ b.player_id)

instance : DecidableRel transferKeyOrder := fun a b => by
  unfold transferKeyOrder; infer_instance

instance : IsTotal TransferRec transferKeyOrder where
  total := by
    intro a b
    rcases lt_trichotomy a.fee_eur b.fee_eur with h | h | h
    · exact Or.inr (Or.inl h)
    · rcases le_total a.player_id b.player_id with h2 | h2
      · exact Or.inl (Or.inr ⟨h, h2⟩)
      · exact Or.inr (Or.inr ⟨h.symm, h2⟩)
    · exact Or.inl (Or.inl h)

instance : IsTrans TransferRec transferKeyOrder where
  trans := by
    intro a b c hab hbc
    rcases hab with h1 | ⟨h1, h2⟩ <;> rcases hbc with h3 | ⟨h3, h4⟩
    · exact Or.inl (by omega)
    · exact Or.inl (by omega)
    · exact Or.inl (by omega)
    · exact Or.inr ⟨by omega, le_trans h2 h4⟩

/-- The records of one season tracked for pre-aggregation
(ingest_transfers.py 76-83): season truthy and fee strictly positive. -/
def transfersOfSeason (recs : List TransferRec) (season : String) : List TransferRec :=
  if season = "" then []
  else recs.filter (fun r => r.season == season && decide (0 < r.fee_eur))

/-- The rows written to `top_transfers_by_season` for one season
(ingest_transfers.py 103-115): the first 100 of the full stable sort. -/
def top_transfers_rows (recs : List TransferRec) (season : String) : List TransferRec :=
  (List.insertionSort transferKeyOrder (transfersOfSeason recs season)).take 100

/-- C7: per season, the rows written to the pre-aggregated top-transfers table
are a prefix of the full sort of that season's positive-fee transfers ordered
by fee descending then player id ascending, and never number more than the
fixed cap of 100. -/
theorem top_transfers_cap_and_order (recs : List TransferRec) (season : String) :
    top_transfers_rows recs season <+:
      List.insertionSort transferKeyOrder (transfersOfSeason recs season) ∧
    (top_transfers_rows recs season).length ≤ 100 ∧
    (top_transfers_rows recs season).Pairwise transferKeyOrder ∧
    ∀ r ∈ top_transfers_rows recs season, 0 < r.fee_eur ∧ r.season = season := by
  refine ⟨⟨(List.insertionSort transferKeyOrder (transfersOfSeason recs season)).drop 100,
      List.take_append_drop 100 _⟩, ?_, ?_, ?_⟩
  · rw [top_transfers_rows, List.length_take]
    exact min_le_left _ _
  · exact List.Pairwise.sublist (List.take_sublist 100 _)
      (List.sorted_insertionSort transferKeyOrder _)
  · intro r hr
    have hsort : r ∈ List.insertionSort transferKeyOrder (transfersOfSeason recs season) :=
      (List.take_sublist 100 _).subset hr
    have hmem : r ∈ transfersOfSeason recs season :=
      (List.perm_insertionSort transferKeyOrder _).subset hsort
    by_cases hs : season = ""
    · rw [transfersOfSeason, if_pos hs] at hmem
      simp at hmem
    · rw [transfersOfSeason, if_neg hs] at hmem
      have := (List.mem_filter.mp hmem).2
      simp only [Bool.and_eq_true, beq_iff_eq, decide_eq_true_eq] at this
      exact ⟨this.2, this.1⟩

/-- Concrete season records used to witness C7: two positive-fee transfers
and one free transfer in season 2022-2023. -/
def demoTransfers : List TransferRec :=
  [{ player_id := "p1", season := "2022-2023", transfer_date := 10,
     from_team_id := "a", to_team_id := "b", fee_eur := 50 },
   { player_id := "p2", season := "2022-2023", transfer_date := 11,
     from_team_id := "c", to_team_id := "d", fee_eur := 80 },
   { player_id := "p3", season := "2022-2023", transfer_date := 12,
     from_team_id := "e", to_team_id := "f", fee_eur := 0 }]

/-- Witness for C7 at the concrete season records: the written rows respect
the cap, and the highest-fee row is a written positive-fee row of the
season. -/
theorem top_transfers_cap_and_order_witness :
    (top_transfers_rows demoTransfers "2022-2023").length ≤ 100 ∧
    0 < (⟨"p2", "2022-2023", 11, "c", "d", 80⟩ : TransferRec).fee_eur ∧
    (⟨"p2", "2022-2023", 11, "c", "d", 80⟩ : TransferRec).season = "2022-2023" := by
  have h := top_transfers_cap_and_order demoTransfers "2022-2023"
  exact ⟨h.2.1, h.2.2.2 ⟨"p2", "2022-2023", 11, "c", "d", 80⟩ (by decide)⟩

/-! ### Row parsing helpers (`parse_date` and `to_int`, utils.py 10-68)

`parse_date` tries `strptime` with the formats `"%Y-%m-%d"`, `"%d/%m/%Y"`,
`"%m/%d/%Y"`, `"%Y"`, `"%d-%m-%Y"` in order.  CPython's `strptime` matches a
format by regex — `%Y` is four digits, `%m` is `(1[012]|0[1-9]|[1-9])`, `%d`
is `(3[01]|[12]\d|0[1-9]|[1-9]| [1-9])`, alternatives tried left to right
with backtracking, the whole string must be consumed — and then validates the
captured fields through the `datetime.date` constructor (years 1-9999,
month-aware day ranges, Gregorian leap years), raising `ValueError` (caught:
next format) when they do not form a date.  Input values are modelled as
`PyValue`: `null` covers `None`/`NaN`, strings are `List Char`, and the
`Timestamp`/`datetime`/`date` branches collapse to a `date` payload.  The
numeric branch of `to_int` (`int(float(value))`) is outside this model. -/

/-- A `datetime.date` value. -/
structure PyDate where
  year : Nat
  month : Nat
  day : Nat
deriving DecidableEq, Repr

/-- A Python value reaching the parsing helpers. -/
inductive PyValue
  | null
  | str (s : List Char)
  | date (d : PyDate)
deriving DecidableEq, Repr

/-- Python `str.strip` whitespace. -/
def isPySpace (c : Char) : Bool :=
  c = ' ' || c = '\t' || c = '\n' || c = '\r' || c = '\x0b' || c = '\x0c'

/-- Python `str.strip()`: remove leading and trailing whitespace. -/
def pyStrip (s : List Char) : List Char :=
  ((s.dropWhile isPySpace).reverse.dropWhile isPySpace).reverse

/-- Numeric value of a decimal digit character. -/
def digitVal (c : Char) : Nat := c.toNat - 48

/-- `%Y`: exactly four digits. -/
def matchY4 : List Char → Option (Nat × List Char)
  | a :: b :: c :: d :: rest =>
    if a.isDigit && b.isDigit && c.isDigit && d.isDigit then
      some (((digitVal a * 10 + digitVal b) * 10 + digitVal c) * 10 + digitVal d, rest)
    else none
  | _ => none

/-- `%m`: the regex alternatives `1[012]`, `0[1-9]`, `[1-9]` in priority
order, each with the remaining input. -/
def monthCandidates (s : List Char) : List (Nat × List Char) :=
  (match s with
   | a :: b :: rest =>
     (if a = '1' && b.isDigit && digitVal b ≤ 2 then [(10 + digitVal b, rest)] else []) ++
     (if a = '0' && b.isDigit && 1 ≤ digitVal b then [(digitVal b, rest)] else [])
   | _ => []) ++
  (match s with
   | a :: rest => if a.isDigit && 1 ≤ digitVal a then [(digitVal a, rest)] else []
   | _ => [])

/-- `%d`: the regex alternatives `3[01]`, `[12]\d`, `0[1-9]`, `[1-9]`,
`space[1-9]` in priority order. -/
def dayCandidates (s : List Char) : List (Nat × List Char) :=
  (match s with
   | a :: b :: rest =>
     (if a = '3' && b.isDigit && digitVal b ≤ 1 then [(30 + digitVal b, rest)] else []) ++
     (if (a = '1' || a = '2') && b.isDigit then [(digitVal a * 10 + digitVal b, rest)] else []) ++
     (if a = '0' && b.isDigit && 1 ≤ digitVal b then [(digitVal b, rest)] else [])
   | _ => []) ++
  (match s with
   | a :: rest => if a.isDigit && 1 ≤ digitVal a then [(digitVal a, rest)] else []
   | _ => []) ++
  (match s with
   | a :: b :: rest =>
     if a = ' ' && b.isDigit && 1 ≤ digitVal b then [(digitVal b, rest)] else []
   | _ => [])

/-- Regex backtracking: the first candidate whose continuation succeeds. -/
def firstSome {α β : Type} : List α → (α → Option β) → Option β
  | [], _ => none
  | x :: xs, f =>
    match f x with
    | some b => some b
    | none => firstSome xs f

/-- Full-string match of `"%Y-%m-%d"`. -/
def matchYMD (s : List Char) : Option (Nat × Nat × Nat) :=
  match matchY4 s with
  | some (y, r1) =>
    match r1 with
    | '-' :: r2 =>
      firstSome (monthCandidates r2) (fun mc =>
        match mc.2 with
        | '-' :: r4 =>
          firstSome (dayCandidates r4) (fun dc =>
            if dc.2 = [] then some (y, mc.1, dc.1) else none)
        | _ => none)
    | _ => none
  | none => none

/-- Full-string match of `"%d<sep>%m<sep>%Y"` (covers `"%d/%m/%Y"` and
`"%d-%m-%Y"`). -/
def matchDMY (sep : Char) (s : List Char) : Option (Nat × Nat × Nat) :=
  firstSome (dayCandidates s) (fun dc =>
    match dc.2 with
    | c1 :: r2 =>
      if c1 = sep then
        firstSome (monthCandidates r2) (fun mc =>
          match mc.2 with
          | c2 :: r4 =>
            if c2 = sep then
              match matchY4 r4 with
              | some (y, r5) => if r5 = [] then some (y, mc.1, dc.1) else none
              | none => none
            else none
          | _ => none)
      else none
    | _ => none)

/-- Full-string match of `"%m/%d/%Y"`. -/
def matchMDY (s : List Char) : Option (Nat × Nat × Nat) :=
  firstSome (monthCandidates s) (fun mc =>
    match mc.2 with
    | '/' :: r2 =>
      firstSome (dayCandidates r2) (fun dc =>
        match dc.2 with
        | '/' :: r4 =>
          match matchY4 r4 with
          | some (y, r5) => if r5 = [] then some (y, mc.1, dc.1) else none
          | none => none
        | _ => none)
    | _ => none)

/-- Full-string match of `"%Y"` (`strptime` defaults month and day to 1). -/
def matchYonly (s : List Char) : Option (Nat × Nat × Nat) :=
  match matchY4 s with
  | some (y, r) => if r = [] then some (y, 1, 1) else none
  | none => none

/-- Gregorian leap year, as `calendar.isleap`. -/
def isLeapYear (y : Nat) : Bool := y % 4 = 0 && (y % 100 ≠ 0 || y % 400 = 0)

/-- Days in a month of a year. -/
def daysInMonth (y m : Nat) : Nat :=
  if m = 2 then (if isLeapYear y then 29 else 28)
  else if m = 4 || m = 6 || m = 9 || m = 11 then 30
  else 31

/-- The `datetime.date` constructor: `some` exactly on valid dates. -/
def mkPyDate (y m d : Nat) : Option PyDate :=
  if 1 ≤ y && y ≤ 9999 && 1 ≤ m && m ≤ 12 && 1 ≤ d && d ≤ daysInMonth y m then
    some ⟨y, m, d⟩
  else none

/-- The recognized formats of `parse_date` (utils.py 23), in source order. -/
inductive DateFmt
  | ymdDash
  | dmySlash
  | mdySlash
  | yOnly
  | dmyDash
deriving DecidableEq, Repr

/-- The format list `["%Y-%m-%d", "%d/%m/%Y", "%m/%d/%Y", "%Y", "%d-%m-%Y"]`. -/
def dateFormats : List DateFmt := [.ymdDash, .dmySlash, .mdySlash, .yOnly, .dmyDash]

/-- One `datetime.strptime(value, fmt).date()` attempt: regex match then
date construction; `none` models the caught `ValueError`. -/
def runFormat (f : DateFmt) (s : List Char) : Option PyDate :=
  match (match f with
         | .ymdDash => matchYMD s
         | .dmySlash => matchDMY '/' s
         | .mdySlash => matchMDY s
         | .yOnly => matchYonly s
         | .dmyDash => matchDMY '-' s) with
  | some (y, m, d) => mkPyDate y m d
  | none => none

/-- The format loop of utils.py 23-27: first format that parses wins. -/
def tryFormats : List DateFmt → List Char → Option PyDate
  | [], _ => none
  | f :: fs, s =>
    match runFormat f s with
    | some d => some d
    | none => tryFormats fs s

/-- Embedding of `parse_date` (utils.py 10-44). -/
def parse_date : PyValue → Option PyDate
  | .null => none
  | .date d => some d
  | .str s =>
    if pyStrip s = [] then none
    else tryFormats dateFormats (pyStrip s)

/-- utils.py 61: keep only digits and `'-'`. -/
def cleanChars (s : List Char) : List Char := s.filter (fun c => c.isDigit || c = '-')

/-- The natural number denoted by a digit list. -/
def digitsToNat (l : List Char) : Nat := l.foldl (fun acc c => acc * 10 + digitVal c) 0

/-- Python `int(s)` on a string of digits and `'-'` characters: defined
exactly on an optional leading `'-'` followed by at least one digit;
`none` models the `ValueError` (caught by `to_int`). -/
def pyIntLit (l : List Char) : Option Int :=
  if l.head? = some '-' then
    if !l.tail.isEmpty && l.tail.all Char.isDigit then
      some (-(digitsToNat l.tail : Int))
    else none
  else
    if !l.isEmpty && l.all Char.isDigit then some ((digitsToNat l : Int)) else none

/-- Embedding of `to_int` (utils.py 47-68) on the modelled inputs. -/
def to_int (v : PyValue) (default : Int) : Int :=
  match v with
  | .null => default
  | .date _ => default
  | .str s0 =>
    let s := pyStrip s0
    if s = [] then default
    else
      let cleaned := cleanChars s
      if cleaned = [] || cleaned = ['-'] then default
      else
        match pyIntLit cleaned with
        | some n => n
        | none => default

/-- Whether a character list holds at least one decimal digit. -/
def hasDigit (l : List Char) : Bool := l.any Char.isDigit

/-- A valid Python integer literal over digits and `'-'`: an optional leading
`'-'` followed by one or more digits. -/
def validIntLit (l : List Char) : Bool :=
  if l.head? = some '-' then !l.tail.isEmpty && l.tail.all Char.isDigit
  else !l.isEmpty && l.all Char.isDigit

/-- The integer denoted by a valid literal. -/
def intLitValue (l : List Char) : Int :=
  if l.head? = some '-' then -(digitsToNat l.tail : Int)
  else (digitsToNat l : Int)

/-- The amended specification of `to_int` on string inputs: the default when
the stripped value is empty, when the cleaned form (digits and `'-'` only)
holds no digit, or when the cleaned form is not a valid integer literal;
otherwise the integer the cleaned form denotes. -/
def toIntSpec (s : List Char) (default : Int) : Int :=
  if pyStrip s = [] then default
  else if !hasDigit (cleanChars (pyStrip s)) then default
  else if !validIntLit (cleanChars (pyStrip s)) then default
  else intLitValue (cleanChars (pyStrip s))

/-- C10 counterexample: `to_int` on the string `"1-2"` — which is nonempty
and whose cleaned form contains a digit — returns whatever default it is
given, not an integer formed from the string's digit and `'-'` characters. -/
theorem to_int_default_outside_claimed_cases :
    to_int (.str ['1', '-', '2']) 7 = 7 ∧
    to_int (.str ['1', '-', '2']) 9 = 9 ∧
    pyStrip ['1', '-', '2'] ≠ [] ∧
    hasDigit (cleanChars (pyStrip ['1', '-', '2'])) = true := by decide

theorem pyIntLit_eq (l : List Char) :
    pyIntLit l = if validIntLit l then some (intLitValue l) else none := by
  rw [pyIntLit, validIntLit, intLitValue]
  by_cases h : l.head? = some '-'
  · simp only [if_pos h]
  · simp only [if_neg h]

theorem validIntLit_hasDigit (l : List Char) (h : validIntLit l = true) :
    hasDigit l = true := by
  rw [validIntLit] at h
  rw [hasDigit, List.any_eq_true]
  by_cases hh : l.head? = some '-'
  · rw [if_pos hh] at h
    simp only [Bool.and_eq_true, Bool.not_eq_true', List.all_eq_true] at h
    obtain ⟨hne, hall⟩ := h
    cases l with
    | nil => simp at hh
    | cons c t =>
      cases t with
      | nil => simp at hne
      | cons x t2 => exact ⟨x, by simp, hall x (by simp)⟩
  · rw [if_neg hh] at h
    simp only [Bool.and_eq_true, Bool.not_eq_true', List.all_eq_true] at h
    obtain ⟨hne, hall⟩ := h
    cases l with
    | nil => simp at hne
    | cons x t => exact ⟨x, by simp, hall x (by simp)⟩

theorem validIntLit_ne_trivial (l : List Char) (h : validIntLit l = true) :
    l ≠ [] ∧ l ≠ ['-'] := by
  constructor
  · rintro rfl; exact absurd h (by decide)
  · rintro rfl; exact absurd h (by decide)

theorem hasDigit_nil : hasDigit ([] : List Char) = false := by decide

theorem hasDigit_dash : hasDigit ['-'] = false := by decide

theorem validIntLit_nil : validIntLit ([] : List Char) = false := by decide

theorem validIntLit_dash : validIntLit ['-'] = false := by decide

theorem to_int_eq_spec (s : List Char) (default : Int) :
    to_int (.str s) default = toIntSpec s default := by
  rw [to_int, toIntSpec]
  by_cases h0 : pyStrip s = []
  · simp [h0]
  · simp only [if_neg h0]
    by_cases hv : validIntLit (cleanChars (pyStrip s)) = true
    · have hd := validIntLit_hasDigit _ hv
      have hne := validIntLit_ne_trivial _ hv
      rw [pyIntLit_eq]
      simp [hv, hd, hne.1, hne.2]
    · have hv2 : validIntLit (cleanChars (pyStrip s)) = false := by
        simpa using hv
      rw [pyIntLit_eq]
      by_cases hd : hasDigit (cleanChars (pyStrip s)) = true <;>
        by_cases hc1 : cleanChars (pyStrip s) = [] <;>
        by_cases hc2 : cleanChars (pyStrip s) = ['-'] <;>
        simp [hv2, hd, hc1, hc2, hasDigit_nil, hasDigit_dash, validIntLit_nil,
          validIntLit_dash]

theorem tryFormats_eq_none_iff (fs : List DateFmt) (s : List Char) :
    tryFormats fs s = none ↔ ∀ f ∈ fs, runFormat f s = none := by
  induction fs with
  | nil => simp [tryFormats]
  | cons f fs ih =>
    rw [tryFormats]
    cases hf : runFormat f s with
    | some d => simp [hf]
    | none => simp [hf, ih]

/-- C10 (amended): the per-row parsing helpers are total on the modelled
inputs.  `parse_date` returns a date or `none` and never raises — `none` for
null input, the date itself for a date input, and for a string input exactly
when none of its five recognized formats matches the stripped value.
`to_int` returns an integer and never raises — its default when the value is
null, when the stripped string is empty, when the cleaned form (all
characters other than digits and `'-'` removed) contains no digit, or when
the cleaned form is not a valid integer literal (an optional leading `'-'`
followed by digits); otherwise the integer the cleaned form denotes. -/
theorem utils_parsers_total (s : List Char) (d0 : PyDate) (default : Int) :
    parse_date .null = none ∧
    parse_date (.date d0) = some d0 ∧
    (parse_date (.str s) = none ↔ ∀ f ∈ dateFormats, runFormat f (pyStrip s) = none) ∧
    to_int .null default = default ∧
    to_int (.str s) default = toIntSpec s default := by
  refine ⟨rfl, rfl, ?_, rfl, to_int_eq_spec s default⟩
  have hfail0 : ∀ f ∈ dateFormats, runFormat f ([] : List Char) = none := by decide
  rw [parse_date]
  by_cases h0 : pyStrip s = []
  · rw [if_pos h0, h0]
    exact iff_of_true rfl hfail0
  · rw [if_neg h0]
    exact tryFormats_eq_none_iff dateFormats (pyStrip s)

/-- Witness for the amended C10 at concrete inputs. -/
theorem utils_parsers_total_witness :
    parse_date .null = none ∧
    parse_date (.date ⟨2023, 5, 13⟩) = some ⟨2023, 5, 13⟩ ∧
    (parse_date (.str [' ', '4', '2', ' ']) = none ↔
      ∀ f ∈ dateFormats, runFormat f (pyStrip [' ', '4', '2', ' ']) = none) ∧
    to_int .null 7 = 7 ∧
    to_int (.str [' ', '4', '2', ' ']) 7 = toIntSpec [' ', '4', '2', ' '] 7 :=
  utils_parsers_total [' ', '4', '2', ' '] ⟨2023, 5, 13⟩ 7

end FootballNoSQL
